import Mathlib

/-!
# Product API: the `GetProductByID` handler

A shallow embedding of `workshop/product-api` (`handlers/product.go`,
`models/product.go`, the request-logging middleware of `main.go`) together
with the part of Go's `strconv` package the handler calls (`Atoi`,
`ParseInt`, `ParseUint`).

Modelling conventions.

* A Go `string` is a Lean `String`.  Go iterates over the bytes of a string;
  the loops below iterate over its characters and look at the first byte of
  the UTF-8 encoding of each (`leadByte`).  A character below `0x80` is its
  own single byte; any other character starts with a byte `≥ 0xC0`, on which
  every loop of `strconv` stops with an error, so the remaining bytes of
  such a character are never inspected.  `len(s)` is `String.utf8ByteSize`.
* Machine integers are `Nat`/`Int` with an explicit wrap: `uint64` arithmetic
  is taken `% 2^64`, `int64` and `int` values go through `wrapInt`.
* The width of `int` (`strconv.IntSize`, 32 or 64) is the parameter `intSize`.
* The package-level map `mockProducts` and the logger's output are the
  explicit state threaded through the handler.
* A `float64` price is carried as the rational it denotes.
-/

namespace strconv

/-- The two sentinel errors of `strconv` a decimal parse can report. -/
inductive ParseErr where
  | ErrSyntax
  | ErrRange
  deriving DecidableEq, Repr

/-- Go's `strconv.NumError`: the failing function, the input, the cause. -/
structure NumError where
  Func : String
  Num : String
  Err : ParseErr
  deriving DecidableEq, Repr

/-- Go's `syntaxError(fn, str)`. -/
def syntaxError (fn str : String) : NumError := ⟨fn, str, ParseErr.ErrSyntax⟩

/-- Go's `rangeError(fn, str)`. -/
def rangeError (fn str : String) : NumError := ⟨fn, str, ParseErr.ErrRange⟩

/-- Two's-complement reading of an integer in `w` bits (conversion to a signed
`w`-bit type, and the result of signed `w`-bit arithmetic). -/
def wrapInt (w : Nat) (x : Int) : Int :=
  (x + 2 ^ (w - 1)) % 2 ^ w - 2 ^ (w - 1)

/-- First byte of the UTF-8 encoding of a character. -/
def leadByte (c : Char) : Nat :=
  if c.toNat < 0x80 then c.toNat
  else if c.toNat < 0x800 then 0xC0 + c.toNat / 0x40
  else if c.toNat < 0x10000 then 0xE0 + c.toNat / 0x1000
  else 0xF0 + c.toNat / 0x40000

/-- Go's `lower(c byte) byte`, that is `c | ('x' - 'X')`. -/
def lower (c : Nat) : Nat := c ||| 0x20

/-- Go's `maxUint64`. -/
def maxUint64 : Nat := 2 ^ 64 - 1

/-- The `switch` of `ParseUint` that reads one byte as a digit (`base` is 10,
so the underscore case is off); `none` is its `default` case. -/
def digitOf (c : Nat) : Option Nat :=
  if 48 ≤ c ∧ c ≤ 57 then some (c - 48)
  else if 97 ≤ lower c ∧ lower c ≤ 122 then some ((lower c - 97 + 10) % 256)
  else none

/-- The digit loop of `ParseUint(s, 10, bitSize)`, `n` being the value
accumulated so far; `s0` is the string the error names. -/
def parseUintLoop (s0 : String) (maxVal : Nat) : List Char → Nat → Nat × Option NumError
  | [], n => (n, none)
  | ch :: rest, n =>
    match digitOf (leadByte ch) with
    | none => (0, some (syntaxError "ParseUint" s0))
    | some d =>
      if d ≥ 10 then
        (0, some (syntaxError "ParseUint" s0))
      else if n ≥ maxUint64 / 10 + 1 then
        (maxVal, some (rangeError "ParseUint" s0))
      else
        let n10 := (n * 10) % 2 ^ 64
        let n1 := (n10 + d) % 2 ^ 64
        if n1 < n10 ∨ n1 > maxVal then
          (maxVal, some (rangeError "ParseUint" s0))
        else
          parseUintLoop s0 maxVal rest n1

/-- Go's `strconv.ParseUint(s, 10, 0)` on a platform whose `int` has
`intSize` bits (`maxVal` is `uint64(1)<<uint(bitSize) - 1`). -/
def ParseUint (intSize : Nat) (s : String) : Nat × Option NumError :=
  if s = "" then (0, some (syntaxError "ParseUint" s))
  else parseUintLoop s ((2 ^ intSize % 2 ^ 64 + 2 ^ 64 - 1) % 2 ^ 64) s.data 0

/-- Go's `strconv.ParseInt(s, 10, 0)` on a platform whose `int` has
`intSize` bits. -/
def ParseInt (intSize : Nat) (s : String) : Int × Option NumError :=
  match s.data with
  | [] => (0, some (syntaxError "ParseInt" s))
  | c :: rest =>
    let neg := decide (c ≠ '+') && decide (c = '-')
    let t : String := if c = '+' ∨ c = '-' then ⟨rest⟩ else s
    match ParseUint intSize t with
    | (_, some ⟨_, _, ParseErr.ErrSyntax⟩) => (0, some (syntaxError "ParseInt" s))
    | (un, _) =>
      let cutoff := 2 ^ (intSize - 1) % 2 ^ 64
      if !neg ∧ un ≥ cutoff then
        (wrapInt 64 ((cutoff + 2 ^ 64 - 1) % 2 ^ 64), some (rangeError "ParseInt" s))
      else if neg ∧ un > cutoff then
        (wrapInt 64 (-(wrapInt 64 cutoff)), some (rangeError "ParseInt" s))
      else
        let n := wrapInt 64 un
        (if neg then wrapInt 64 (-n) else n, none)

/-- The digit loop of the fast path of `Atoi`; `none` is the syntax error. -/
def atoiFastLoop (intSize : Nat) : List Char → Int → Option Int
  | [], n => some n
  | ch :: rest, n =>
    let d := (leadByte ch + 256 - 48) % 256
    if d > 9 then none
    else atoiFastLoop intSize rest (wrapInt intSize (n * 10 + d))

/-- The fast path of `Atoi`, for small integers that fit the `int` type. -/
def atoiFast (intSize : Nat) (s : String) : Int × Option NumError :=
  match s.data with
  | [] => (0, some (syntaxError "Atoi" s))
  | c :: rest =>
    let signed := c = '-' ∨ c = '+'
    if signed ∧ rest = [] then (0, some (syntaxError "Atoi" s))
    else
      match atoiFastLoop intSize (if signed then rest else c :: rest) 0 with
      | none => (0, some (syntaxError "Atoi" s))
      | some n => (if c = '-' then wrapInt intSize (-n) else n, none)

/-- The slow path of `Atoi`, for invalid or big integers. -/
def atoiSlow (intSize : Nat) (s : String) : Int × Option NumError :=
  match ParseInt intSize s with
  | (i64, some nerr) => (wrapInt intSize i64, some { nerr with Func := "Atoi" })
  | (i64, none) => (wrapInt intSize i64, none)

/-- Go's `strconv.Atoi(s)` on a platform whose `int` has `intSize` bits. -/
def Atoi (intSize : Nat) (s : String) : Int × Option NumError :=
  let sLen := s.utf8ByteSize
  if (intSize = 32 ∧ (0 < sLen ∧ sLen < 10)) ∨ (intSize = 64 ∧ (0 < sLen ∧ sLen < 19)) then
    atoiFast intSize s
  else
    atoiSlow intSize s

end strconv

open strconv

/-! ## `models/product.go` -/

/-- Go's `models.Product`. -/
structure Product where
  ID : Int
  Name : String
  Price : Rat
  Stock : Int
  deriving DecidableEq

/-- Go's `models.ErrorResponse`. -/
structure ErrorResponse where
  Message : String
  deriving DecidableEq

/-! ## The collaborators: `slog`, `echo.Context` -/

/-- Levels of `log/slog` the program uses. -/
inductive Level where
  | Info
  | Warn
  | Error
  deriving DecidableEq

/-- Value of a `slog.Attr` (`slog.String`, `slog.Int`, `slog.Any` of an error). -/
inductive AttrValue where
  | str (s : String)
  | int (n : Int)
  | err (e : NumError)
  deriving DecidableEq

/-- One `slog.Attr`. -/
structure Attr where
  key : String
  value : AttrValue
  deriving DecidableEq

/-- One record written by a logger. -/
structure LogEntry where
  level : Level
  msg : String
  attrs : List Attr
  deriving DecidableEq

/-- A `*slog.Logger`: the attributes attached to it by `With`. -/
structure Logger where
  bound : List Attr
  deriving DecidableEq

/-- Go's `(*slog.Logger).With`. -/
def Logger.With (l : Logger) (attrs : List Attr) : Logger := ⟨l.bound ++ attrs⟩

/-- The value handed to `c.JSON`. -/
inductive Body where
  | product (p : Product)
  | error (e : ErrorResponse)
  deriving DecidableEq

/-- What the handler sees of an `echo.Context`. -/
structure Context where
  /-- `c.Param(name)`. -/
  Param : String → String
  /-- `c.Response().Header().Get(key)`. -/
  ResponseHeaderGet : String → String
  /-- `trace.SpanFromContext(c.Request().Context()).SpanContext().TraceID().String()`. -/
  RequestTraceID : String
  /-- `c.Request().Method`. -/
  Method : String
  /-- `c.Request().URL.Path`. -/
  Path : String
  /-- The values stored with `c.Set`. -/
  values : List (String × Logger)
  /-- The error `c.JSON(code, body)` returns (`none` is `nil`). -/
  JSON : Nat → Body → Option String

/-- Go's `c.Set(key, val)`. -/
def Context.Set (c : Context) (key : String) (val : Logger) : Context :=
  { c with values := (key, val) :: c.values.filter (fun kv => kv.1 ≠ key) }

/-! ## `handlers/product.go` -/

/-- The mutable state of the process the handler can reach: the package-level
map `mockProducts` and the records written by the loggers. -/
structure State where
  mockProducts : Int → Option Product
  log : List LogEntry

/-- The initial value of `mockProducts`. -/
def mockProducts : Int → Option Product := fun id =>
  if id = 1 then some { ID := 1, Name := "Product name 1", Price := 100.5, Stock := 10 }
  else none

/-- The state right after package initialisation. -/
def initState : State := ⟨mockProducts, []⟩

/-- A logger call (`Info`, `Warn`, `Error`): one record appended to the output. -/
def Logger.emit (l : Logger) (lvl : Level) (msg : String) (attrs : List Attr)
    (σ : State) : State :=
  { σ with log := σ.log ++ [⟨lvl, msg, l.bound ++ attrs⟩] }

/-- Go's `handlers.ProductHandler`. -/
structure ProductHandler where
  Logger : Logger

/-- `http.StatusOK`. -/
def StatusOK : Nat := 200
/-- `http.StatusBadRequest`. -/
def StatusBadRequest : Nat := 400
/-- `http.StatusNotFound`. -/
def StatusNotFound : Nat := 404

/-- A finished handler call: the state it leaves, the status code and the body
it handed to `c.JSON`, and the error it returned to its caller. -/
structure Outcome where
  state : State
  Code : Nat
  Body : Body
  err : Option String

/-- Go's `(*ProductHandler).GetProductByID`. -/
def GetProductByID (intSize : Nat) (h : ProductHandler) (c : Context) (σ : State) : Outcome :=
  let idStr := c.Param "id"
  match Atoi intSize idStr with
  | (_, some err) =>
    let σ1 := h.Logger.emit Level.Error "Invalid product ID format"
      [⟨"id", .str idStr⟩, ⟨"error", .err err⟩,
       ⟨"traceID", .str (c.ResponseHeaderGet "X-Request-ID")⟩] σ
    let body := Body.error ⟨"Invalid product ID format"⟩
    ⟨σ1, StatusBadRequest, body, c.JSON StatusBadRequest body⟩
  | (id, none) =>
    match σ.mockProducts id with
    | none =>
      let σ1 := h.Logger.emit Level.Warn "Product not found" [⟨"id", .int id⟩] σ
      let body := Body.error ⟨"product id=" ++ idStr ++ " not found in system"⟩
      ⟨σ1, StatusNotFound, body, c.JSON StatusNotFound body⟩
    | some product =>
      let σ1 := h.Logger.emit Level.Info "Product retrieved successfully"
        [⟨"id", .int id⟩, ⟨"name", .str product.Name⟩] σ
      ⟨σ1, StatusOK, Body.product product, c.JSON StatusOK (Body.product product)⟩

/-! ## `main.go`: the request-logging middleware -/

/-- The custom middleware registered in `main` (`e.Use(func(next) ...)`): it
reads the trace identifier of the request context, stores a logger carrying
it under the key `"logger"`, logs the request and calls `next`. -/
def requestLogging (logger : Logger) (next : Context → State → Outcome)
    (c : Context) (σ : State) : Outcome :=
  let traceID := c.RequestTraceID
  let c1 := c.Set "logger" (logger.With [⟨"traceID", .str traceID⟩])
  let σ1 := logger.emit Level.Info "Incoming request"
    [⟨"method", .str c.Method⟩, ⟨"path", .str c.Path⟩, ⟨"traceID", .str traceID⟩] σ
  next c1 σ1

/-- A sequence of requests served one after the other from state `σ`. -/
def serve (intSize : Nat) (h : ProductHandler) : List Context → State → State
  | [], σ => σ
  | c :: cs, σ => serve intSize h cs (GetProductByID intSize h c σ).state

/-- The context `product_test.go` builds for a case: a `GET` request to
`/product/<productID>` on a fresh recorder, the path parameter `id` set by
hand, the test logger stored under `"logger"`; the request context holds no
span, whose trace identifier then reads as thirty-two zeros. -/
def testContext (productID : String) : Context :=
  { Param := fun name => if name = "id" then productID else ""
    ResponseHeaderGet := fun _ => ""
    RequestTraceID := "00000000000000000000000000000000"
    Method := "GET"
    Path := "/product/" ++ productID
    values := [("logger", ⟨[]⟩)]
    JSON := fun _ _ => none }

/-- The context of a `GET /product/<productID>` request as it reaches the
custom middleware of `main`: the router has bound the path parameter, the
tracing middleware has put a span with trace identifier `traceID` in the
request context, and the response is fresh (nothing registered in `main`
sets a response header). -/
def mainContext (productID traceID : String) : Context :=
  { Param := fun name => if name = "id" then productID else ""
    ResponseHeaderGet := fun _ => ""
    RequestTraceID := traceID
    Method := "GET"
    Path := "/product/" ++ productID
    values := []
    JSON := fun _ _ => none }

/-- A context like `testContext` whose response can no longer be written
(the client has gone away): `c.JSON` returns the write error. -/
def brokenPipeContext (productID : String) : Context :=
  { testContext productID with JSON := fun _ _ => some "write tcp: broken pipe" }

/-! ## Decimal tokens and the store invariant (specification side) -/

/-- An ASCII decimal digit, `'0'` to `'9'`. -/
def isDecDigit (c : Char) : Prop := 48 ≤ c.toNat ∧ c.toNat ≤ 57

instance : DecidablePred isDecDigit := fun c => by
  unfold isDecDigit; infer_instance

/-- The number written by the digits `ds` after the digits already read as `n`. -/
def valueFrom : List Char → Nat → Nat
  | [], n => n
  | c :: cs, n => valueFrom cs (n * 10 + (c.toNat - 48))

/-- The number a string of decimal digits denotes. -/
def digitsValue (ds : List Char) : Nat := valueFrom ds 0

/-- The token `s` is the nonempty digits `ds` behind an optional sign; `neg`
tells a minus sign. -/
def isDecimalToken (s : String) (neg : Bool) (ds : List Char) : Prop :=
  ds ≠ [] ∧ (∀ c ∈ ds, isDecDigit c) ∧
    ((neg = true ∧ s.data = '-' :: ds) ∨ (neg = false ∧ (s.data = ds ∨ s.data = '+' :: ds)))

instance (s : String) (neg : Bool) (ds : List Char) : Decidable (isDecimalToken s neg ds) := by
  unfold isDecimalToken; infer_instance

/-- The integer a decimal token denotes. -/
def signedValue (neg : Bool) (ds : List Char) : Int :=
  if neg = true then -(digitsValue ds : Int) else (digitsValue ds : Int)

/-- The store invariant of the specification: every key is a positive
identifier and maps to a product carrying that identifier. -/
def storeInvariant (m : Int → Option Product) : Prop :=
  ∀ k p, m k = some p → 0 < k ∧ p.ID = k

/-- The canonical decimal rendering of an integer (Go's `strconv.Itoa`). -/
def Itoa (n : Int) : String :=
  if n < 0 then "-" ++ Nat.repr n.natAbs else Nat.repr n.natAbs

/-! ## Facts about the parser -/

theorem leadByte_of_digit {c : Char} (h : isDecDigit c) : leadByte c = c.toNat := by
  unfold isDecDigit at h
  unfold leadByte
  rw [if_pos (by omega)]

theorem digitOf_of_digit {b : Nat} (h1 : 48 ≤ b) (h2 : b ≤ 57) : digitOf b = some (b - 48) := by
  unfold digitOf
  rw [if_pos ⟨h1, h2⟩]

theorem le_valueFrom (ds : List Char) : ∀ n, n ≤ valueFrom ds n := by
  induction ds with
  | nil => intro n; rw [valueFrom]
  | cons c cs ih =>
    intro n
    have := ih (n * 10 + (c.toNat - 48))
    rw [valueFrom]
    omega

theorem valueFrom_lt (ds : List Char) (hd : ∀ c ∈ ds, isDecDigit c) :
    ∀ n, valueFrom ds n < (n + 1) * 10 ^ ds.length := by
  induction ds with
  | nil => intro n; simp [valueFrom]
  | cons c cs ih =>
    intro n
    have hc : isDecDigit c := hd c (List.mem_cons_self _ _)
    have := ih (fun x hx => hd x (List.mem_cons_of_mem _ hx)) (n * 10 + (c.toNat - 48))
    unfold isDecDigit at hc
    simp only [valueFrom, List.length_cons, pow_succ]
    calc valueFrom cs (n * 10 + (c.toNat - 48))
        < (n * 10 + (c.toNat - 48) + 1) * 10 ^ cs.length := this
      _ ≤ ((n + 1) * 10) * 10 ^ cs.length := by
          apply Nat.mul_le_mul_right; omega
      _ = (n + 1) * (10 ^ cs.length * 10) := by ring

theorem wrapInt_eq_self {w : Nat} (hw : w = 32 ∨ w = 64) {x : Int}
    (h1 : -(2 ^ (w - 1)) ≤ x) (h2 : x < 2 ^ (w - 1)) : wrapInt w x = x := by
  rcases hw with rfl | rfl <;> norm_num [wrapInt] at * <;> omega

/-- The digit loop of `ParseUint` on decimal digits: the value, or the range
error as soon as the value exceeds `maxVal`. -/
theorem parseUintLoop_digits (s0 : String) (maxVal : Nat) (hmax : maxVal < 2 ^ 64)
    (ds : List Char) (hd : ∀ c ∈ ds, isDecDigit c) :
    ∀ n, n ≤ maxVal →
      parseUintLoop s0 maxVal ds n =
        if valueFrom ds n ≤ maxVal then (valueFrom ds n, none)
        else (maxVal, some (rangeError "ParseUint" s0)) := by
  induction ds with
  | nil => intro n hn; simp [parseUintLoop, valueFrom, hn]
  | cons c cs ih =>
    intro n hn
    have hc : isDecDigit c := hd c (List.mem_cons_self _ _)
    have ih1 := ih (fun x hx => hd x (List.mem_cons_of_mem _ hx))
    have hmono := le_valueFrom cs (n * 10 + (c.toNat - 48))
    have hlead := leadByte_of_digit hc
    unfold isDecDigit at hc
    have hdig := digitOf_of_digit hc.1 hc.2
    simp only [parseUintLoop, hlead, hdig, valueFrom]
    norm_num [maxUint64] at hmax ⊢
    rw [if_neg (by omega)]
    by_cases hcut : 1844674407370955162 ≤ n
    · rw [if_pos hcut, if_neg (by omega)]
    · rw [if_neg hcut]
      have e10 : n * 10 % 18446744073709551616 = n * 10 := Nat.mod_eq_of_lt (by omega)
      rw [e10]
      by_cases hov : n * 10 + (c.toNat - 48) < 18446744073709551616
      · have e1 : (n * 10 + (c.toNat - 48)) % 18446744073709551616 = n * 10 + (c.toNat - 48) :=
          Nat.mod_eq_of_lt hov
        rw [e1]
        by_cases hgt : maxVal < n * 10 + (c.toNat - 48)
        · rw [if_pos (Or.inr hgt), if_neg (by omega)]
        · rw [if_neg (by omega)]
          exact ih1 _ (by omega)
      · rw [if_pos (Or.inl (by omega)), if_neg (by omega)]

theorem ParseUint_digits {w : Nat} (hw : w = 32 ∨ w = 64) (s : String)
    (hne : s.data ≠ []) (hd : ∀ c ∈ s.data, isDecDigit c) :
    ParseUint w s =
      if digitsValue s.data ≤ 2 ^ w - 1 then (digitsValue s.data, none)
      else (2 ^ w - 1, some (rangeError "ParseUint" s)) := by
  have hs : s ≠ "" := by
    intro h
    apply hne
    rw [h]
  have hm : (2 ^ w % 2 ^ 64 + 2 ^ 64 - 1) % 2 ^ 64 = 2 ^ w - 1 := by
    rcases hw with rfl | rfl <;> norm_num
  unfold ParseUint
  rw [if_neg hs, hm]
  have hlt : 2 ^ w - 1 < 2 ^ 64 := by
    rcases hw with rfl | rfl <;> norm_num
  exact parseUintLoop_digits s (2 ^ w - 1) hlt s.data hd 0 (Nat.zero_le _)

theorem length_le_utf8ByteSize_go (cs : List Char) :
    cs.length ≤ String.utf8ByteSize.go cs := by
  induction cs with
  | nil => simp [String.utf8ByteSize.go]
  | cons c cs ih =>
    have := c.utf8Size_pos
    simp only [String.utf8ByteSize.go, List.length_cons]
    omega

theorem length_le_utf8ByteSize (s : String) : s.data.length ≤ s.utf8ByteSize := by
  cases s with
  | mk cs => exact length_le_utf8ByteSize_go cs

theorem atoiFastLoop_digits {w : Nat} (hw : w = 32 ∨ w = 64) (ds : List Char)
    (hd : ∀ c ∈ ds, isDecDigit c) :
    ∀ n : Nat, (valueFrom ds n : Int) < 2 ^ (w - 1) →
      atoiFastLoop w ds (n : Int) = some ((valueFrom ds n : Nat) : Int) := by
  induction ds with
  | nil => intro n _; simp [atoiFastLoop, valueFrom]
  | cons c cs ih =>
    intro n hn
    have hc : isDecDigit c := hd c (List.mem_cons_self _ _)
    have ih1 := ih (fun x hx => hd x (List.mem_cons_of_mem _ hx)) (n * 10 + (c.toNat - 48))
    have hmono := le_valueFrom cs (n * 10 + (c.toNat - 48))
    have hlead := leadByte_of_digit hc
    unfold isDecDigit at hc
    have hdig : (c.toNat + 256 - 48) % 256 = c.toNat - 48 := by omega
    rw [valueFrom] at hn ⊢
    have hw1 : wrapInt w ((n : Int) * 10 + ((c.toNat - 48 : Nat) : Int))
        = ((n * 10 + (c.toNat - 48) : Nat) : Int) := by
      rw [wrapInt_eq_self hw]
      · push_cast; rfl
      · have : (0 : Int) ≤ 2 ^ (w - 1) := by positivity
        omega
      · have : ((n * 10 + (c.toNat - 48) : Nat) : Int) ≤ (valueFrom cs (n * 10 + (c.toNat - 48)) : Nat) := by
          exact_mod_cast hmono
        push_cast at this hn ⊢
        omega
    simp only [atoiFastLoop, hlead, hdig]
    rw [if_neg (by omega), hw1]
    exact ih1 hn

/-- What `ParseInt` makes of the unsigned part once `ParseUint` has read it. -/
theorem ParseInt_of_ParseUint {w : Nat} (hw : w = 32 ∨ w = 64) (s : String) (c : Char)
    (rest : List Char) (hs : s.data = c :: rest) (V : Nat) (t0 : String)
    (hu : ParseUint w (if c = '+' ∨ c = '-' then ⟨rest⟩ else s) =
      if V ≤ 2 ^ w - 1 then (V, none) else (2 ^ w - 1, some (rangeError "ParseUint" t0))) :
    ParseInt w s =
      if c = '-' then
        (if V ≤ 2 ^ (w - 1) then (-(V : Int), none)
         else (-(2 ^ (w - 1) : Int), some (rangeError "ParseInt" s)))
      else
        (if V < 2 ^ (w - 1) then ((V : Int), none)
         else ((2 ^ (w - 1) : Int) - 1, some (rangeError "ParseInt" s))) := by
  unfold ParseInt
  rw [hs]
  simp only [hu]
  rcases hw with rfl | rfl
  · by_cases hneg : c = '-'
    · subst hneg
      by_cases hV : V ≤ 2 ^ 32 - 1
      · norm_num at hV
        simp [hV, rangeError, wrapInt]
        split_ifs <;> simp <;> omega
      · norm_num at hV
        have hV2 : ¬ V ≤ 4294967295 := by omega
        simp [hV2, rangeError, wrapInt]
        rw [if_neg (by omega)]
    · by_cases hV : V ≤ 2 ^ 32 - 1
      · norm_num at hV
        simp [hneg, hV, rangeError, wrapInt]
        split_ifs <;> simp <;> omega
      · norm_num at hV
        have hV2 : ¬ V ≤ 4294967295 := by omega
        simp [hneg, hV2, rangeError, wrapInt]
        rw [if_neg (by omega)]
  · by_cases hneg : c = '-'
    · subst hneg
      by_cases hV : V ≤ 2 ^ 64 - 1
      · norm_num at hV
        simp [hV, rangeError, wrapInt]
        split_ifs <;> simp <;> omega
      · norm_num at hV
        have hV2 : ¬ V ≤ 18446744073709551615 := by omega
        simp [hV2, rangeError, wrapInt]
        rw [if_neg (by omega)]
    · by_cases hV : V ≤ 2 ^ 64 - 1
      · norm_num at hV
        simp [hneg, hV, rangeError, wrapInt]
        split_ifs <;> simp <;> omega
      · norm_num at hV
        have hV2 : ¬ V ≤ 18446744073709551615 := by omega
        simp [hneg, hV2, rangeError, wrapInt]
        rw [if_neg (by omega)]

theorem ne_plus_of_digit {c : Char} (h : isDecDigit c) : c ≠ '+' := by
  intro e
  rw [e] at h
  exact absurd h (by decide)

theorem ne_minus_of_digit {c : Char} (h : isDecDigit c) : c ≠ '-' := by
  intro e
  rw [e] at h
  exact absurd h (by decide)

/-- `ParseInt` on a decimal token: the signed value when it fits `int`, the
range error otherwise. -/
theorem ParseInt_decimal {w : Nat} (hw : w = 32 ∨ w = 64) (s : String) (neg : Bool)
    (ds : List Char) (h : isDecimalToken s neg ds) :
    ParseInt w s =
      if neg = true then
        (if digitsValue ds ≤ 2 ^ (w - 1) then (-(digitsValue ds : Int), none)
         else (-(2 ^ (w - 1) : Int), some (rangeError "ParseInt" s)))
      else
        (if digitsValue ds < 2 ^ (w - 1) then ((digitsValue ds : Int), none)
         else ((2 ^ (w - 1) : Int) - 1, some (rangeError "ParseInt" s))) := by
  obtain ⟨hne, hd, hshape⟩ := h
  have hu := ParseUint_digits hw ⟨ds⟩ hne hd
  rcases hshape with ⟨hn, hs⟩ | ⟨hn, hs | hs⟩
  · subst hn
    have := ParseInt_of_ParseUint hw s '-' ds hs (digitsValue ds) ⟨ds⟩ (by simpa using hu)
    simpa using this
  · subst hn
    cases ds with
    | nil => exact absurd rfl hne
    | cons c rest =>
      have hc : isDecDigit c := hd c (List.mem_cons_self _ _)
      have h1 := ne_plus_of_digit hc
      have h2 := ne_minus_of_digit hc
      have hu2 := ParseUint_digits hw s (by rw [hs]; exact hne) (by rw [hs]; exact hd)
      rw [hs] at hu2
      have := ParseInt_of_ParseUint hw s c rest hs (digitsValue (c :: rest)) s
        (by simpa [h1, h2] using hu2)
      simpa [h2] using this
  · subst hn
    have := ParseInt_of_ParseUint hw s '+' ds hs (digitsValue ds) ⟨ds⟩ (by simpa using hu)
    simpa using this

theorem digitsValue_lt_of_length {w : Nat} (ds : List Char) (hd : ∀ c ∈ ds, isDecDigit c)
    (hlen : w = 32 ∧ ds.length < 10 ∨ w = 64 ∧ ds.length < 19) :
    digitsValue ds < 2 ^ (w - 1) := by
  have h1 := valueFrom_lt ds hd 0
  rw [Nat.zero_add, Nat.one_mul] at h1
  rcases hlen with ⟨rfl, hl⟩ | ⟨rfl, hl⟩
  · have h2 : 10 ^ ds.length ≤ 10 ^ 9 := Nat.pow_le_pow_right (by norm_num) (by omega)
    unfold digitsValue
    norm_num at h2 ⊢
    omega
  · have h2 : 10 ^ ds.length ≤ 10 ^ 18 := Nat.pow_le_pow_right (by norm_num) (by omega)
    unfold digitsValue
    norm_num at h2 ⊢
    omega

/-- The fast path of `Atoi` on a decimal token short enough to take it. -/
theorem atoiFast_decimal {w : Nat} (hw : w = 32 ∨ w = 64) (s : String) (neg : Bool)
    (ds : List Char) (h : isDecimalToken s neg ds)
    (hlen : w = 32 ∧ s.data.length < 10 ∨ w = 64 ∧ s.data.length < 19) :
    atoiFast w s = (signedValue neg ds, none) := by
  obtain ⟨hne, hd, hshape⟩ := h
  have hle : ds.length ≤ s.data.length := by
    rcases hshape with ⟨_, hs⟩ | ⟨_, hs | hs⟩ <;> rw [hs] <;> simp
  have hV : digitsValue ds < 2 ^ (w - 1) :=
    digitsValue_lt_of_length ds hd (by omega)
  have hVi : ((valueFrom ds 0 : Nat) : Int) < 2 ^ (w - 1) := by
    unfold digitsValue at hV
    exact_mod_cast hV
  have hloop := atoiFastLoop_digits hw ds hd 0 hVi
  rw [Nat.cast_zero] at hloop
  have hpos : (0 : Int) ≤ ((valueFrom ds 0 : Nat) : Int) := Int.natCast_nonneg _
  have hwn : wrapInt w (-((valueFrom ds 0 : Nat) : Int)) = -((valueFrom ds 0 : Nat) : Int) :=
    wrapInt_eq_self hw (by omega) (by omega)
  unfold atoiFast
  rcases hshape with ⟨hn, hs⟩ | ⟨hn, hs | hs⟩
  · subst hn
    rw [hs]
    simp [hne, hloop, hwn, signedValue, digitsValue]
  · subst hn
    cases ds with
    | nil => exact absurd rfl hne
    | cons c rest =>
      have hc : isDecDigit c := hd c (List.mem_cons_self _ _)
      have h1 := ne_plus_of_digit hc
      have h2 := ne_minus_of_digit hc
      rw [hs]
      simp [h1, h2, hloop, signedValue, digitsValue]
  · subst hn
    rw [hs]
    simp [hne, hloop, signedValue, digitsValue]

/-- The slow path of `Atoi` on a decimal token. -/
theorem atoiSlow_decimal {w : Nat} (hw : w = 32 ∨ w = 64) (s : String) (neg : Bool)
    (ds : List Char) (h : isDecimalToken s neg ds) :
    atoiSlow w s =
      if -(2 ^ (w - 1) : Int) ≤ signedValue neg ds ∧ signedValue neg ds < 2 ^ (w - 1) then
        (signedValue neg ds, none)
      else
        (if neg = true then -(2 ^ (w - 1) : Int) else 2 ^ (w - 1) - 1,
          some (rangeError "Atoi" s)) := by
  unfold atoiSlow
  rw [ParseInt_decimal hw s neg ds h]
  cases neg <;> rcases hw with rfl | rfl <;>
    simp only [signedValue, rangeError, wrapInt] <;> norm_num <;>
    split_ifs <;> simp <;> omega

theorem Atoi_of_fast {w : Nat} {s : String}
    (h : (w = 32 ∧ (0 < s.utf8ByteSize ∧ s.utf8ByteSize < 10)) ∨
      (w = 64 ∧ (0 < s.utf8ByteSize ∧ s.utf8ByteSize < 19))) :
    Atoi w s = atoiFast w s := if_pos h

theorem Atoi_of_slow {w : Nat} {s : String}
    (h : ¬ ((w = 32 ∧ (0 < s.utf8ByteSize ∧ s.utf8ByteSize < 10)) ∨
      (w = 64 ∧ (0 < s.utf8ByteSize ∧ s.utf8ByteSize < 19)))) :
    Atoi w s = atoiSlow w s := if_neg h

/-- `Atoi` on a decimal token: the signed value when it fits the `int` type,
the range error otherwise. -/
theorem Atoi_decimal {w : Nat} (hw : w = 32 ∨ w = 64) (s : String) (neg : Bool)
    (ds : List Char) (h : isDecimalToken s neg ds) :
    Atoi w s =
      if -(2 ^ (w - 1) : Int) ≤ signedValue neg ds ∧ signedValue neg ds < 2 ^ (w - 1) then
        (signedValue neg ds, none)
      else
        (if neg = true then -(2 ^ (w - 1) : Int) else 2 ^ (w - 1) - 1,
          some (rangeError "Atoi" s)) := by
  by_cases hfast : (w = 32 ∧ (0 < s.utf8ByteSize ∧ s.utf8ByteSize < 10)) ∨
      (w = 64 ∧ (0 < s.utf8ByteSize ∧ s.utf8ByteSize < 19))
  · have hlb := length_le_utf8ByteSize s
    have hlen : w = 32 ∧ s.data.length < 10 ∨ w = 64 ∧ s.data.length < 19 := by omega
    rw [Atoi_of_fast hfast, atoiFast_decimal hw s neg ds h hlen]
    obtain ⟨hne, hd, hshape⟩ := h
    have hle : ds.length ≤ s.data.length := by
      rcases hshape with ⟨_, hs⟩ | ⟨_, hs | hs⟩ <;> rw [hs] <;> simp
    have hV : digitsValue ds < 2 ^ (w - 1) := digitsValue_lt_of_length ds hd (by omega)
    have hVi : ((digitsValue ds : Nat) : Int) < 2 ^ (w - 1) := by exact_mod_cast hV
    have hpos : (0 : Int) ≤ ((digitsValue ds : Nat) : Int) := Int.natCast_nonneg _
    rw [if_pos]
    unfold signedValue
    split <;> constructor <;> omega
  · rw [Atoi_of_slow hfast]
    exact atoiSlow_decimal hw s neg ds h

/-! ### Only decimal tokens parse -/

theorem toNat_lt_of_char (c : Char) : c.toNat < 0x110000 := by
  have h := c.valid
  have e : c.toNat = c.val.toNat := rfl
  simp only [UInt32.isValidChar, Nat.isValidChar] at h
  omega

theorem leadByte_mem (c : Char) :
    (c.toNat < 0x80 ∧ leadByte c = c.toNat) ∨ (0xC0 ≤ leadByte c ∧ leadByte c < 0x100) := by
  have hc := toNat_lt_of_char c
  unfold leadByte
  by_cases h1 : c.toNat < 0x80
  · left; rw [if_pos h1]; exact ⟨h1, rfl⟩
  · right
    rw [if_neg h1]
    split
    · omega
    · split <;> omega

theorem digit_of_fast_step {c : Char} (h : ¬ (leadByte c + 256 - 48) % 256 > 9) :
    isDecDigit c := by
  unfold isDecDigit
  rcases leadByte_mem c with ⟨h1, h2⟩ | ⟨h1, h2⟩
  · rw [h2] at h; omega
  · omega

theorem digit_of_digitOf {c : Char} {d : Nat} (h : digitOf (leadByte c) = some d)
    (hd : ¬ d ≥ 10) : isDecDigit c := by
  unfold digitOf at h
  split at h
  · rename_i hr
    unfold isDecDigit
    rcases leadByte_mem c with ⟨h1, h2⟩ | ⟨h1, h2⟩
    · rw [h2] at hr; exact hr
    · omega
  · split at h
    · rename_i hl
      cases h
      omega
    · cases h

theorem digits_of_atoiFastLoop {w : Nat} (cs : List Char) :
    ∀ (n v : Int), atoiFastLoop w cs n = some v → ∀ c ∈ cs, isDecDigit c := by
  induction cs with
  | nil => intro n v _ c hc; cases hc
  | cons a cs ih =>
    intro n v h c hc
    simp only [atoiFastLoop] at h
    split at h
    · cases h
    · rename_i hstep
      rcases List.mem_cons.mp hc with rfl | hmem
      · exact digit_of_fast_step hstep
      · exact ih _ v h c hmem

/-- The digit loop of `ParseUint` ends in one of three ways; it reports no
error only on decimal digits. -/
theorem parseUintLoop_cases (s0 : String) (maxVal : Nat) (cs : List Char) :
    ∀ n : Nat,
      ((parseUintLoop s0 maxVal cs n).2 = none ∧ ∀ c ∈ cs, isDecDigit c) ∨
      parseUintLoop s0 maxVal cs n = (0, some (syntaxError "ParseUint" s0)) ∨
      parseUintLoop s0 maxVal cs n = (maxVal, some (rangeError "ParseUint" s0)) := by
  induction cs with
  | nil =>
    intro n
    left
    exact ⟨rfl, fun c hc => by cases hc⟩
  | cons a cs ih =>
    intro n
    simp only [parseUintLoop]
    rcases hda : digitOf (leadByte a) with _ | d
    · right; left; rfl
    · dsimp only
      split
      · right; left; rfl
      · rename_i hd10
        have ha : isDecDigit a := digit_of_digitOf hda hd10
        split
        · right; right; rfl
        · split
          · right; right; rfl
          · rcases ih ((n * 10 % 2 ^ 64 + d) % 2 ^ 64) with ⟨h1, h2⟩ | h1 | h1
            · left
              refine ⟨h1, ?_⟩
              intro c hc
              rcases List.mem_cons.mp hc with rfl | hmem
              · exact ha
              · exact h2 c hmem
            · right; left; exact h1
            · right; right; exact h1

theorem ParseUint_cases (w : Nat) (s : String) :
    ((ParseUint w s).2 = none ∧ s.data ≠ [] ∧ ∀ c ∈ s.data, isDecDigit c) ∨
    ParseUint w s = (0, some (syntaxError "ParseUint" s)) ∨
    ParseUint w s =
      ((2 ^ w % 2 ^ 64 + 2 ^ 64 - 1) % 2 ^ 64, some (rangeError "ParseUint" s)) := by
  unfold ParseUint
  by_cases hs : s = ""
  · right; left; rw [if_pos hs]
  · rw [if_neg hs]
    have hne : s.data ≠ [] := by
      intro h
      apply hs
      cases s
      simp only at h
      rw [h]
    rcases parseUintLoop_cases s ((2 ^ w % 2 ^ 64 + 2 ^ 64 - 1) % 2 ^ 64) s.data 0 with
      ⟨h1, h2⟩ | h1 | h1
    · left; exact ⟨h1, hne, h2⟩
    · right; left; exact h1
    · right; right; exact h1

/-- `ParseInt` reports no error only on a decimal token. -/
theorem decimal_of_ParseInt {w : Nat} (hw : w = 32 ∨ w = 64) (s : String)
    (h : (ParseInt w s).2 = none) : ∃ neg ds, isDecimalToken s neg ds := by
  rcases hs : s.data with _ | ⟨c, rest⟩
  · unfold ParseInt at h
    rw [hs] at h
    simp at h
  · unfold ParseInt at h
    rw [hs] at h
    simp only at h
    rcases ParseUint_cases w (if c = '+' ∨ c = '-' then ⟨rest⟩ else s) with
      ⟨h1, h2, h3⟩ | h1 | h1
    · by_cases hsign : c = '+' ∨ c = '-'
      · rw [if_pos hsign] at h2 h3
        rcases hsign with rfl | rfl
        · exact ⟨false, rest, h2, h3, Or.inr ⟨rfl, Or.inr hs⟩⟩
        · exact ⟨true, rest, h2, h3, Or.inl ⟨rfl, hs⟩⟩
      · rw [if_neg hsign] at h2 h3
        rw [hs] at h2 h3
        exact ⟨false, c :: rest, h2, h3, Or.inr ⟨rfl, Or.inl hs⟩⟩
    · rw [h1] at h
      simp [syntaxError] at h
    · rw [h1] at h
      exfalso
      rcases hw with rfl | rfl <;> simp [rangeError] at h <;> split_ifs at h <;> simp at h <;>
        tauto

theorem decimal_of_atoiSlow {w : Nat} (hw : w = 32 ∨ w = 64) (s : String)
    (h : (atoiSlow w s).2 = none) : ∃ neg ds, isDecimalToken s neg ds := by
  apply decimal_of_ParseInt hw
  unfold atoiSlow at h
  rcases hp : ParseInt w s with ⟨i64, _ | e⟩
  · rfl
  · rw [hp] at h
    simp at h

theorem decimal_of_atoiFast {w : Nat} (s : String)
    (h : (atoiFast w s).2 = none) : ∃ neg ds, isDecimalToken s neg ds := by
  unfold atoiFast at h
  rcases hs : s.data with _ | ⟨c, rest⟩
  · rw [hs] at h
    simp at h
  · rw [hs] at h
    simp only at h
    split at h
    · simp at h
    · rename_i hempty
      rcases hl : atoiFastLoop w (if c = '-' ∨ c = '+' then rest else c :: rest) 0 with _ | n
      · rw [hl] at h
        simp at h
      · have hdig := digits_of_atoiFastLoop _ 0 n hl
        by_cases hsign : c = '-' ∨ c = '+'
        · rw [if_pos hsign] at hdig
          have hne : rest ≠ [] := fun e => hempty ⟨hsign, e⟩
          rcases hsign with rfl | rfl
          · exact ⟨true, rest, hne, hdig, Or.inl ⟨rfl, hs⟩⟩
          · exact ⟨false, rest, hne, hdig, Or.inr ⟨rfl, Or.inr hs⟩⟩
        · rw [if_neg hsign] at hdig
          exact ⟨false, c :: rest, List.cons_ne_nil _ _, hdig, Or.inr ⟨rfl, Or.inl hs⟩⟩

/-- `Atoi` reports no error only on a decimal token. -/
theorem decimal_of_Atoi {w : Nat} (hw : w = 32 ∨ w = 64) (s : String)
    (h : (Atoi w s).2 = none) : ∃ neg ds, isDecimalToken s neg ds := by
  by_cases hfast : (w = 32 ∧ (0 < s.utf8ByteSize ∧ s.utf8ByteSize < 10)) ∨
      (w = 64 ∧ (0 < s.utf8ByteSize ∧ s.utf8ByteSize < 19))
  · rw [Atoi_of_fast hfast] at h
    exact decimal_of_atoiFast s h
  · rw [Atoi_of_slow hfast] at h
    exact decimal_of_atoiSlow hw s h

/-- Functional correctness of `Atoi`: it returns `n` without an error exactly
on the decimal tokens that denote `n`, `n` being in the range of `int`. -/
theorem Atoi_eq_iff {w : Nat} (hw : w = 32 ∨ w = 64) (s : String) (n : Int) :
    Atoi w s = (n, none) ↔
      ∃ neg ds, isDecimalToken s neg ds ∧ signedValue neg ds = n ∧
        -(2 ^ (w - 1) : Int) ≤ n ∧ n < 2 ^ (w - 1) := by
  constructor
  · intro h
    obtain ⟨neg, ds, htok⟩ := decimal_of_Atoi hw s (by rw [h])
    have hd := Atoi_decimal hw s neg ds htok
    rw [h] at hd
    by_cases hr : -(2 ^ (w - 1) : Int) ≤ signedValue neg ds ∧ signedValue neg ds < 2 ^ (w - 1)
    · rw [if_pos hr] at hd
      have e : n = signedValue neg ds := congrArg Prod.fst hd
      exact ⟨neg, ds, htok, e.symm, by rw [e]; exact hr.1, by rw [e]; exact hr.2⟩
    · rw [if_neg hr] at hd
      exact absurd (congrArg Prod.snd hd) (by simp)
  · rintro ⟨neg, ds, htok, rfl, h1, h2⟩
    rw [Atoi_decimal hw s neg ds htok, if_pos ⟨h1, h2⟩]

/-! ## The handler on each of its three branches -/

theorem GetProductByID_of_parse_error (w : Nat) (h : ProductHandler) (c : Context) (σ : State)
    (v : Int) (e : NumError) (hp : Atoi w (c.Param "id") = (v, some e)) :
    GetProductByID w h c σ =
      ⟨h.Logger.emit Level.Error "Invalid product ID format"
          [⟨"id", .str (c.Param "id")⟩, ⟨"error", .err e⟩,
           ⟨"traceID", .str (c.ResponseHeaderGet "X-Request-ID")⟩] σ,
        StatusBadRequest, Body.error ⟨"Invalid product ID format"⟩,
        c.JSON StatusBadRequest (Body.error ⟨"Invalid product ID format"⟩)⟩ := by
  simp [GetProductByID, hp]

theorem GetProductByID_of_absent (w : Nat) (h : ProductHandler) (c : Context) (σ : State)
    (id : Int) (hp : Atoi w (c.Param "id") = (id, none)) (hk : σ.mockProducts id = none) :
    GetProductByID w h c σ =
      ⟨h.Logger.emit Level.Warn "Product not found" [⟨"id", .int id⟩] σ,
        StatusNotFound,
        Body.error ⟨"product id=" ++ c.Param "id" ++ " not found in system"⟩,
        c.JSON StatusNotFound
          (Body.error ⟨"product id=" ++ c.Param "id" ++ " not found in system"⟩)⟩ := by
  simp [GetProductByID, hp, hk]

theorem GetProductByID_of_present (w : Nat) (h : ProductHandler) (c : Context) (σ : State)
    (id : Int) (p : Product) (hp : Atoi w (c.Param "id") = (id, none))
    (hk : σ.mockProducts id = some p) :
    GetProductByID w h c σ =
      ⟨h.Logger.emit Level.Info "Product retrieved successfully"
          [⟨"id", .int id⟩, ⟨"name", .str p.Name⟩] σ,
        StatusOK, Body.product p, c.JSON StatusOK (Body.product p)⟩ := by
  simp [GetProductByID, hp, hk]

/-- The handler never writes to the store. -/
theorem GetProductByID_mockProducts (w : Nat) (h : ProductHandler) (c : Context) (σ : State) :
    (GetProductByID w h c σ).state.mockProducts = σ.mockProducts := by
  rcases hp : Atoi w (c.Param "id") with ⟨id, _ | e⟩
  · rcases hk : σ.mockProducts id with _ | p
    · rw [GetProductByID_of_absent w h c σ id hp hk]; rfl
    · rw [GetProductByID_of_present w h c σ id p hp hk]; rfl
  · rw [GetProductByID_of_parse_error w h c σ id e hp]; rfl

theorem serve_mockProducts (w : Nat) (h : ProductHandler) (cs : List Context) :
    ∀ σ : State, (serve w h cs σ).mockProducts = σ.mockProducts := by
  induction cs with
  | nil => intro σ; rfl
  | cons c cs ih =>
    intro σ
    rw [serve, ih, GetProductByID_mockProducts]

/-! ## The claims -/

/-- C1: a token that parses to an identifier that is a key of the store gets
status 200 and, as body, exactly the record stored under that identifier; with
the shipped store and the token "1" the body is product 1, "Product name 1",
price 100.5, stock 10. -/
theorem C1_present_id_responds_200 :
    (∀ (w : Nat) (h : ProductHandler) (c : Context) (σ : State) (id : Int) (p : Product),
      Atoi w (c.Param "id") = (id, none) → σ.mockProducts id = some p →
        (GetProductByID w h c σ).Code = 200 ∧
        (GetProductByID w h c σ).Body = Body.product p) ∧
    (∀ (w : Nat) (h : ProductHandler) (c : Context) (σ : State),
      w = 32 ∨ w = 64 → c.Param "id" = "1" → σ.mockProducts = mockProducts →
        (GetProductByID w h c σ).Code = 200 ∧
        (GetProductByID w h c σ).Body =
          Body.product { ID := 1, Name := "Product name 1", Price := 100.5, Stock := 10 }) := by
  have gen : ∀ (w : Nat) (h : ProductHandler) (c : Context) (σ : State) (id : Int) (p : Product),
      Atoi w (c.Param "id") = (id, none) → σ.mockProducts id = some p →
        (GetProductByID w h c σ).Code = 200 ∧
        (GetProductByID w h c σ).Body = Body.product p := by
    intro w h c σ id p hp hk
    rw [GetProductByID_of_present w h c σ id p hp hk]
    exact ⟨rfl, rfl⟩
  refine ⟨gen, ?_⟩
  intro w h c σ hw hc hσ
  have hp : Atoi w (c.Param "id") = (1, none) := by
    rw [hc]
    rcases hw with rfl | rfl <;> decide
  exact gen w h c σ 1 _ hp (by rw [hσ]; rfl)

theorem C1_present_id_responds_200_witness :
    (GetProductByID 64 ⟨⟨[]⟩⟩ (testContext "1") initState).Code = 200 ∧
    (GetProductByID 64 ⟨⟨[]⟩⟩ (testContext "1") initState).Body =
      Body.product { ID := 1, Name := "Product name 1", Price := 100.5, Stock := 10 } :=
  C1_present_id_responds_200.1 64 ⟨⟨[]⟩⟩ (testContext "1") initState 1 _ (by decide) rfl

/-- C2: a token that parses to an identifier that is not a key of the store
gets status 404 and the message "product id=" followed by the token verbatim
followed by " not found in system"; with the shipped store the token "2" gets
"product id=2 not found in system". -/
theorem C2_absent_id_responds_404 :
    (∀ (w : Nat) (h : ProductHandler) (c : Context) (σ : State) (id : Int),
      Atoi w (c.Param "id") = (id, none) → σ.mockProducts id = none →
        (GetProductByID w h c σ).Code = 404 ∧
        (GetProductByID w h c σ).Body =
          Body.error ⟨"product id=" ++ c.Param "id" ++ " not found in system"⟩) ∧
    (∀ (w : Nat) (h : ProductHandler) (c : Context) (σ : State),
      w = 32 ∨ w = 64 → c.Param "id" = "2" → σ.mockProducts = mockProducts →
        (GetProductByID w h c σ).Code = 404 ∧
        (GetProductByID w h c σ).Body =
          Body.error ⟨"product id=2 not found in system"⟩) := by
  have gen : ∀ (w : Nat) (h : ProductHandler) (c : Context) (σ : State) (id : Int),
      Atoi w (c.Param "id") = (id, none) → σ.mockProducts id = none →
        (GetProductByID w h c σ).Code = 404 ∧
        (GetProductByID w h c σ).Body =
          Body.error ⟨"product id=" ++ c.Param "id" ++ " not found in system"⟩ := by
    intro w h c σ id hp hk
    rw [GetProductByID_of_absent w h c σ id hp hk]
    exact ⟨rfl, rfl⟩
  refine ⟨gen, ?_⟩
  intro w h c σ hw hc hσ
  have hp : Atoi w (c.Param "id") = (2, none) := by
    rw [hc]
    rcases hw with rfl | rfl <;> decide
  have := gen w h c σ 2 hp (by rw [hσ]; rfl)
  rw [hc] at this
  exact this

theorem C2_absent_id_responds_404_witness :
    (GetProductByID 64 ⟨⟨[]⟩⟩ (testContext "2") initState).Code = 404 ∧
    (GetProductByID 64 ⟨⟨[]⟩⟩ (testContext "2") initState).Body =
      Body.error ⟨"product id=2 not found in system"⟩ :=
  C2_absent_id_responds_404.2 64 ⟨⟨[]⟩⟩ (testContext "2") initState (Or.inr rfl) rfl rfl

/-- C3: a token that fails to parse gets status 400 and the message "Invalid
product ID format", whatever the store holds (the store is not consulted: the
status, body, returned error and log are the same for every store); every
token that is not an optional sign followed by decimal digits is such a
token, among them "abc" and the empty string. -/
theorem C3_unparsable_responds_400 :
    (∀ (w : Nat) (h : ProductHandler) (c : Context) (σ : State),
      (Atoi w (c.Param "id")).2 ≠ none →
        (GetProductByID w h c σ).Code = 400 ∧
        (GetProductByID w h c σ).Body = Body.error ⟨"Invalid product ID format"⟩ ∧
        ∀ m : Int → Option Product,
          (GetProductByID w h c ⟨m, σ.log⟩).Code = (GetProductByID w h c σ).Code ∧
          (GetProductByID w h c ⟨m, σ.log⟩).Body = (GetProductByID w h c σ).Body ∧
          (GetProductByID w h c ⟨m, σ.log⟩).err = (GetProductByID w h c σ).err ∧
          (GetProductByID w h c ⟨m, σ.log⟩).state.log = (GetProductByID w h c σ).state.log) ∧
    (∀ (w : Nat) (s : String), w = 32 ∨ w = 64 →
      (¬ ∃ neg ds, isDecimalToken s neg ds) → (Atoi w s).2 ≠ none) ∧
    (∀ (w : Nat) (h : ProductHandler) (c : Context) (σ : State),
      w = 32 ∨ w = 64 → c.Param "id" = "abc" ∨ c.Param "id" = "" →
        (GetProductByID w h c σ).Code = 400 ∧
        (GetProductByID w h c σ).Body = Body.error ⟨"Invalid product ID format"⟩) := by
  have gen : ∀ (w : Nat) (h : ProductHandler) (c : Context) (σ : State),
      (Atoi w (c.Param "id")).2 ≠ none →
        (GetProductByID w h c σ).Code = 400 ∧
        (GetProductByID w h c σ).Body = Body.error ⟨"Invalid product ID format"⟩ ∧
        ∀ m : Int → Option Product,
          (GetProductByID w h c ⟨m, σ.log⟩).Code = (GetProductByID w h c σ).Code ∧
          (GetProductByID w h c ⟨m, σ.log⟩).Body = (GetProductByID w h c σ).Body ∧
          (GetProductByID w h c ⟨m, σ.log⟩).err = (GetProductByID w h c σ).err ∧
          (GetProductByID w h c ⟨m, σ.log⟩).state.log = (GetProductByID w h c σ).state.log := by
    intro w h c σ hp
    rcases hq : Atoi w (c.Param "id") with ⟨v, _ | e⟩
    · rw [hq] at hp
      exact absurd rfl hp
    · refine ⟨?_, ?_, ?_⟩
      · rw [GetProductByID_of_parse_error w h c σ v e hq]; rfl
      · rw [GetProductByID_of_parse_error w h c σ v e hq]
      · intro m
        rw [GetProductByID_of_parse_error w h c σ v e hq,
          GetProductByID_of_parse_error w h c ⟨m, σ.log⟩ v e hq]
        exact ⟨rfl, rfl, rfl, rfl⟩
  refine ⟨gen, ?_, ?_⟩
  · intro w s hw hnot hnone
    exact hnot (decimal_of_Atoi hw s hnone)
  · intro w h c σ hw hc
    have hp : (Atoi w (c.Param "id")).2 ≠ none := by
      rcases hc with hc | hc <;> rw [hc] <;> rcases hw with rfl | rfl <;> decide
    exact ⟨(gen w h c σ hp).1, (gen w h c σ hp).2.1⟩

theorem C3_unparsable_responds_400_witness :
    (GetProductByID 64 ⟨⟨[]⟩⟩ (testContext "abc") initState).Code = 400 ∧
    (GetProductByID 64 ⟨⟨[]⟩⟩ (testContext "abc") initState).Body =
      Body.error ⟨"Invalid product ID format"⟩ :=
  C3_unparsable_responds_400.2.2 64 ⟨⟨[]⟩⟩ (testContext "abc") initState (Or.inr rfl)
    (Or.inl rfl)

/-- C4 (as stated, refuted): the handler does propagate an error to its
caller. When writing the response fails, each of the three branches (tokens
"abc", "2" and "1" on the shipped store) returns the error of `c.JSON`. -/
theorem C4_json_error_reaches_caller :
    (GetProductByID 64 ⟨⟨[]⟩⟩ (brokenPipeContext "abc") initState).Code = 400 ∧
    (GetProductByID 64 ⟨⟨[]⟩⟩ (brokenPipeContext "abc") initState).err =
      some "write tcp: broken pipe" ∧
    (GetProductByID 64 ⟨⟨[]⟩⟩ (brokenPipeContext "2") initState).Code = 404 ∧
    (GetProductByID 64 ⟨⟨[]⟩⟩ (brokenPipeContext "2") initState).err =
      some "write tcp: broken pipe" ∧
    (GetProductByID 64 ⟨⟨[]⟩⟩ (brokenPipeContext "1") initState).Code = 200 ∧
    (GetProductByID 64 ⟨⟨[]⟩⟩ (brokenPipeContext "1") initState).err =
      some "write tcp: broken pipe" ∧
    ¬ ∀ (w : Nat) (h : ProductHandler) (c : Context) (σ : State),
      (GetProductByID w h c σ).err = none := by
  refine ⟨by decide, by decide, by decide, by decide, by decide, by decide, ?_⟩
  intro hall
  have := hall 64 ⟨⟨[]⟩⟩ (brokenPipeContext "abc") initState
  exact absurd this (by decide)

/-- C4 (amended): for every token the handler produces exactly one of three
outcomes: status 400 exactly when the token fails to parse, 404 exactly when
it parses to an identifier absent from the store, 200 exactly when it parses
to an identifier present in the store; no other status is produced. The
error it returns to its caller is exactly the one `c.JSON` returns for that
status and body: a parse failure or a missing record is answered, never
returned as an error of its own. -/
theorem C4_three_outcomes_error_is_JSON_result (w : Nat) (h : ProductHandler) (c : Context)
    (σ : State) :
    ((GetProductByID w h c σ).Code = 400 ∨ (GetProductByID w h c σ).Code = 404 ∨
      (GetProductByID w h c σ).Code = 200) ∧
    ((GetProductByID w h c σ).Code = 400 ↔ (Atoi w (c.Param "id")).2 ≠ none) ∧
    ((GetProductByID w h c σ).Code = 404 ↔
      ∃ id, Atoi w (c.Param "id") = (id, none) ∧ σ.mockProducts id = none) ∧
    ((GetProductByID w h c σ).Code = 200 ↔
      ∃ id p, Atoi w (c.Param "id") = (id, none) ∧ σ.mockProducts id = some p) ∧
    (GetProductByID w h c σ).err =
      c.JSON (GetProductByID w h c σ).Code (GetProductByID w h c σ).Body := by
  rcases hp : Atoi w (c.Param "id") with ⟨id, _ | e⟩
  · rcases hk : σ.mockProducts id with _ | p
    · rw [GetProductByID_of_absent w h c σ id hp hk]
      simp [StatusNotFound, hk]
    · rw [GetProductByID_of_present w h c σ id p hp hk]
      simp [StatusOK, hk]
  · rw [GetProductByID_of_parse_error w h c σ id e hp]
    simp [StatusBadRequest]

/-- C5: a token of decimal digits behind an optional sign whose value lies
outside the range of the `int` type fails to parse with the range error, and
the handler answers 400 "Invalid product ID format" whatever the store holds:
the value is not wrapped into an identifier that is looked up. -/
theorem C5_out_of_range_responds_400 (w : Nat) (h : ProductHandler) (c : Context) (σ : State)
    (neg : Bool) (ds : List Char) (hw : w = 32 ∨ w = 64)
    (htok : isDecimalToken (c.Param "id") neg ds)
    (hout : signedValue neg ds < -(2 ^ (w - 1) : Int) ∨ (2 ^ (w - 1) : Int) ≤ signedValue neg ds) :
    (Atoi w (c.Param "id")).2 = some (rangeError "Atoi" (c.Param "id")) ∧
    (GetProductByID w h c σ).Code = 400 ∧
    (GetProductByID w h c σ).Body = Body.error ⟨"Invalid product ID format"⟩ ∧
    ∀ m : Int → Option Product,
      (GetProductByID w h c ⟨m, σ.log⟩).Code = 400 ∧
      (GetProductByID w h c ⟨m, σ.log⟩).Body = Body.error ⟨"Invalid product ID format"⟩ := by
  have hd := Atoi_decimal hw (c.Param "id") neg ds htok
  rw [if_neg (by omega)] at hd
  refine ⟨by rw [hd], ?_, ?_, ?_⟩
  · rw [GetProductByID_of_parse_error w h c σ _ _ hd]; rfl
  · rw [GetProductByID_of_parse_error w h c σ _ _ hd]
  · intro m
    rw [GetProductByID_of_parse_error w h c ⟨m, σ.log⟩ _ _ hd]
    exact ⟨rfl, rfl⟩

theorem C5_out_of_range_responds_400_witness :
    (Atoi 64 "9223372036854775808").2 = some (rangeError "Atoi" "9223372036854775808") ∧
    (GetProductByID 64 ⟨⟨[]⟩⟩ (testContext "9223372036854775808") initState).Code = 400 ∧
    (GetProductByID 64 ⟨⟨[]⟩⟩ (testContext "9223372036854775808") initState).Body =
      Body.error ⟨"Invalid product ID format"⟩ ∧
    ∀ m : Int → Option Product,
      (GetProductByID 64 ⟨⟨[]⟩⟩ (testContext "9223372036854775808") ⟨m, []⟩).Code = 400 ∧
      (GetProductByID 64 ⟨⟨[]⟩⟩ (testContext "9223372036854775808") ⟨m, []⟩).Body =
        Body.error ⟨"Invalid product ID format"⟩ :=
  C5_out_of_range_responds_400 64 ⟨⟨[]⟩⟩ (testContext "9223372036854775808") initState
    false "9223372036854775808".data (Or.inr rfl) (by decide) (by decide)

/-- C6: a token made of a minus sign and decimal digits whose value fits the
`int` type and is not zero parses to that negative integer, which is not a key
of the shipped store, and gets status 404 with the message "product id="
followed by the token followed by " not found in system". -/
theorem C6_negative_token_responds_404 (w : Nat) (h : ProductHandler) (c : Context)
    (σ : State) (ds : List Char) (hw : w = 32 ∨ w = 64)
    (hσ : σ.mockProducts = mockProducts)
    (htok : isDecimalToken (c.Param "id") true ds)
    (hfit : (digitsValue ds : Int) ≤ 2 ^ (w - 1))
    (hnz : digitsValue ds ≠ 0) :
    Atoi w (c.Param "id") = (-(digitsValue ds : Int), none) ∧
    -(digitsValue ds : Int) < 0 ∧
    σ.mockProducts (-(digitsValue ds : Int)) = none ∧
    (GetProductByID w h c σ).Code = 404 ∧
    (GetProductByID w h c σ).Body =
      Body.error ⟨"product id=" ++ c.Param "id" ++ " not found in system"⟩ := by
  have hneg : -(digitsValue ds : Int) < 0 := by omega
  have hp : Atoi w (c.Param "id") = (-(digitsValue ds : Int), none) := by
    have hd := Atoi_decimal hw (c.Param "id") true ds htok
    have hpos : (0 : Int) < 2 ^ (w - 1) := by positivity
    simp only [signedValue, if_true] at hd
    rw [if_pos ⟨by omega, by omega⟩] at hd
    exact hd
  have hk : σ.mockProducts (-(digitsValue ds : Int)) = none := by
    rw [hσ]
    unfold mockProducts
    rw [if_neg (by omega)]
  refine ⟨hp, hneg, hk, ?_, ?_⟩
  · rw [GetProductByID_of_absent w h c σ _ hp hk]; rfl
  · rw [GetProductByID_of_absent w h c σ _ hp hk]

theorem C6_negative_token_responds_404_witness :
    Atoi 64 "-5" = (-5, none) ∧
    (GetProductByID 64 ⟨⟨[]⟩⟩ (testContext "-5") initState).Code = 404 ∧
    (GetProductByID 64 ⟨⟨[]⟩⟩ (testContext "-5") initState).Body =
      Body.error ⟨"product id=-5 not found in system"⟩ :=
  have key := C6_negative_token_responds_404 64 ⟨⟨[]⟩⟩ (testContext "-5") initState
    ['5'] (Or.inr rfl) rfl (by decide) (by decide) (by decide)
  ⟨key.1, key.2.2.2.1, key.2.2.2.2⟩

/-- C7: the shipped store satisfies the store invariant (every key is
positive and the product stored under it carries that key as its ID), and the
store, hence the invariant, is the same in every state reached from the
initial one by any sequence of `GetProductByID` calls. -/
theorem C7_store_invariant :
    storeInvariant mockProducts ∧
    ∀ (w : Nat) (h : ProductHandler) (cs : List Context) (log : List LogEntry),
      (serve w h cs ⟨mockProducts, log⟩).mockProducts = mockProducts ∧
      storeInvariant (serve w h cs ⟨mockProducts, log⟩).mockProducts := by
  have hinv : storeInvariant mockProducts := by
    intro k p hk
    unfold mockProducts at hk
    split at hk
    · rename_i h1
      cases hk
      subst h1
      exact ⟨by decide, rfl⟩
    · cases hk
  refine ⟨hinv, ?_⟩
  intro w h cs log
  rw [serve_mockProducts]
  exact ⟨rfl, hinv⟩

/-- C8: on every branch the handler leaves the store unchanged, and a second
call with the same token right after the first yields the same status code and
the same response body. -/
theorem C8_lookup_is_idempotent (w : Nat) (h : ProductHandler) (c : Context) (σ : State) :
    (GetProductByID w h c σ).state.mockProducts = σ.mockProducts ∧
    (GetProductByID w h c (GetProductByID w h c σ).state).Code =
      (GetProductByID w h c σ).Code ∧
    (GetProductByID w h c (GetProductByID w h c σ).state).Body =
      (GetProductByID w h c σ).Body := by
  refine ⟨GetProductByID_mockProducts w h c σ, ?_⟩
  have hm := GetProductByID_mockProducts w h c σ
  rcases hp : Atoi w (c.Param "id") with ⟨id, _ | e⟩
  · rcases hk : σ.mockProducts id with _ | p
    · rw [GetProductByID_of_absent w h c _ id hp (by rw [hm]; exact hk),
        GetProductByID_of_absent w h c σ id hp hk]
      exact ⟨rfl, rfl⟩
    · rw [GetProductByID_of_present w h c _ id p hp (by rw [hm]; exact hk),
        GetProductByID_of_present w h c σ id p hp hk]
      exact ⟨rfl, rfl⟩
  · rw [GetProductByID_of_parse_error w h c _ id e hp,
      GetProductByID_of_parse_error w h c σ id e hp]
    exact ⟨rfl, rfl⟩

/-- C9: the not-found message carries the raw token, not the parsed integer:
with the shipped store the tokens "+2" and "002" both parse to the absent
identifier 2, each gets 404 with "product id=" ++ token ++ " not found in
system", which differs from the message built from the canonical rendering
"2" of the identifier, and the two bodies differ from each other. -/
theorem C9_message_embeds_raw_token (w : Nat) (h : ProductHandler) (c1 c2 : Context)
    (σ : State) (hw : w = 32 ∨ w = 64) (hσ : σ.mockProducts = mockProducts)
    (h1 : c1.Param "id" = "+2") (h2 : c2.Param "id" = "002") :
    Atoi w "+2" = (2, none) ∧ Atoi w "002" = (2, none) ∧ σ.mockProducts 2 = none ∧
    (GetProductByID w h c1 σ).Code = 404 ∧
    (GetProductByID w h c1 σ).Body =
      Body.error ⟨"product id=" ++ "+2" ++ " not found in system"⟩ ∧
    (GetProductByID w h c2 σ).Code = 404 ∧
    (GetProductByID w h c2 σ).Body =
      Body.error ⟨"product id=" ++ "002" ++ " not found in system"⟩ ∧
    (GetProductByID w h c1 σ).Body ≠
      Body.error ⟨"product id=" ++ Itoa 2 ++ " not found in system"⟩ ∧
    (GetProductByID w h c2 σ).Body ≠
      Body.error ⟨"product id=" ++ Itoa 2 ++ " not found in system"⟩ ∧
    (GetProductByID w h c1 σ).Body ≠ (GetProductByID w h c2 σ).Body := by
  have p1 : Atoi w "+2" = (2, none) := by rcases hw with rfl | rfl <;> decide
  have p2 : Atoi w "002" = (2, none) := by rcases hw with rfl | rfl <;> decide
  have hk : σ.mockProducts 2 = none := by rw [hσ]; rfl
  have e1 := GetProductByID_of_absent w h c1 σ 2 (by rw [h1]; exact p1) hk
  have e2 := GetProductByID_of_absent w h c2 σ 2 (by rw [h2]; exact p2) hk
  have n1 : Body.error ⟨"product id=" ++ "+2" ++ " not found in system"⟩ ≠
      Body.error ⟨"product id=" ++ Itoa 2 ++ " not found in system"⟩ := by decide
  have n2 : Body.error ⟨"product id=" ++ "002" ++ " not found in system"⟩ ≠
      Body.error ⟨"product id=" ++ Itoa 2 ++ " not found in system"⟩ := by decide
  have n3 : Body.error ⟨"product id=" ++ "+2" ++ " not found in system"⟩ ≠
      Body.error ⟨"product id=" ++ "002" ++ " not found in system"⟩ := by decide
  rw [e1, e2, h1, h2]
  exact ⟨p1, p2, hk, rfl, rfl, rfl, rfl, n1, n2, n3⟩

theorem C9_message_embeds_raw_token_witness :
    (GetProductByID 64 ⟨⟨[]⟩⟩ (testContext "+2") initState).Body =
      Body.error ⟨"product id=+2 not found in system"⟩ ∧
    (GetProductByID 64 ⟨⟨[]⟩⟩ (testContext "002") initState).Body =
      Body.error ⟨"product id=002 not found in system"⟩ ∧
    (GetProductByID 64 ⟨⟨[]⟩⟩ (testContext "+2") initState).Body ≠
      (GetProductByID 64 ⟨⟨[]⟩⟩ (testContext "002") initState).Body :=
  have key := C9_message_embeds_raw_token 64 ⟨⟨[]⟩⟩ (testContext "+2") (testContext "002")
    initState (Or.inr rfl) rfl rfl rfl
  ⟨key.2.2.2.2.1, key.2.2.2.2.2.2.1, key.2.2.2.2.2.2.2.2.2⟩

/-- C10: on the request `GET /product/abc` served through the middleware of
`main` with trace identifier 4bf92f3577b34da6a3ce929d0e0e4736 in the request
context, the handler does emit an error-level entry with the raw token and
the parse failure, but its `traceID` attribute is the (empty) value of the
response header `X-Request-ID`, not the trace identifier of the request
context, which only the middleware's own entry carries. -/
theorem C10_error_entry_traceID_is_response_header :
    (requestLogging ⟨[]⟩ (GetProductByID 64 ⟨⟨[]⟩⟩)
        (mainContext "abc" "4bf92f3577b34da6a3ce929d0e0e4736") initState).state.log =
      [⟨Level.Info, "Incoming request",
          [⟨"method", .str "GET"⟩, ⟨"path", .str "/product/abc"⟩,
           ⟨"traceID", .str "4bf92f3577b34da6a3ce929d0e0e4736"⟩]⟩,
       ⟨Level.Error, "Invalid product ID format",
          [⟨"id", .str "abc"⟩, ⟨"error", .err ⟨"Atoi", "abc", ParseErr.ErrSyntax⟩⟩,
           ⟨"traceID", .str ""⟩]⟩] := by
  decide
